import Mathlib

/-!
Verification development for the Eudoros logging engine.

The repository contains two near-identical snapshots of the single module
`src/index.ts`.  This development embeds the current engine variant (the
snapshot whose feature set — per-level `consoleTimestamps` override, date
formatting fallback, domain propagation into file records — matches the
repository README and documentation).  Where the older snapshot differs
materially, this is noted at the theorem concerned.

Modelling conventions:
* JavaScript runtime values carried in log payloads are the inductive
  `JsVal`; numbers are modelled as `Int` (the claims only exercise
  integers).
* Machine time (`new Date()`) is a `Nat` of milliseconds since the epoch,
  passed in as an explicit `now` argument; a single dispatch observes one
  instant.
* Exceptions are modelled with `Except JsErr`; a function that can throw
  returns `List Report × Except JsErr α` where the first component lists
  the internal error reports emitted before the function returned or threw.
* `#formatDate` and `#internalErrorLog` are genuinely mutually recursive in
  the source (the error reporter formats a timestamp with the same
  configured strategy); the embedding makes the recursion explicit with a
  fuel parameter, fuel exhaustion standing for stack overflow.
-/

namespace Eud

/-- A JavaScript exception, abstracted. `stackOverflow` stands for the
`RangeError` raised when the call stack is exhausted. -/
inductive JsErr where
  | typeError (msg : String)
  | userThrow (msg : String)
  | stackOverflow
deriving DecidableEq, Repr

/-- A JavaScript runtime value as it can appear in a logging payload
(`$E.Payload`): string, number (modelled as `Int`), boolean, `null`,
`undefined`, array, plain object, `Date` (epoch milliseconds) or `Error`
(carrying its message). -/
inductive JsVal where
  | str (s : String)
  | num (n : Int)
  | bool (b : Bool)
  | null
  | undef
  | arr (xs : List JsVal)
  | obj (fields : List (String × JsVal))
  | date (t : Nat)
  | err (msg : String)
deriving Repr

/-- JavaScript truthiness for `JsVal`: `false`, `0`, `""`, `null` and
`undefined` are falsy, everything else is truthy. -/
def jsTruthy : JsVal → Bool
  | .str s => s ≠ ""
  | .num n => n ≠ 0
  | .bool b => b
  | .null => false
  | .undef => false
  | .arr _ => true
  | .obj _ => true
  | .date _ => true
  | .err _ => true

/-- Is this value `undefined`?  (Used by the payload filter.) -/
def isUndef : JsVal → Bool
  | .undef => true
  | _ => false

/-- Left-pad a natural number to two digits. -/
def pad2 (n : Nat) : String :=
  if n < 10 then "0" ++ toString n else toString n

/-- Left-pad a natural number to three digits. -/
def pad3 (n : Nat) : String :=
  if n < 10 then "00" ++ toString n
  else if n < 100 then "0" ++ toString n
  else toString n

/-- Civil date (year, month, day) from a count of days since 1970-01-01,
via the standard era-based algorithm. -/
def civilFromDays (z0 : Nat) : Nat × Nat × Nat :=
  let z := z0 + 719468
  let era := z / 146097
  let doe := z % 146097
  let yoe := (doe - doe / 1460 + doe / 36524 - doe / 146096) / 365
  let y := yoe + era * 400
  let doy := doe - (365 * yoe + yoe / 4 - yoe / 100)
  let mp := (5 * doy + 2) / 153
  let d := doy - (153 * mp + 2) / 5 + 1
  let m := if mp < 10 then mp + 3 else mp - 9
  (if m ≤ 2 then y + 1 else y, m, d)

/-- `Date.prototype.toISOString` for an epoch-milliseconds instant:
`YYYY-MM-DDTHH:mm:ss.sssZ`. -/
def toISOString (t : Nat) : String :=
  let ms := t % 1000
  let s := t / 1000 % 60
  let mi := t / 60000 % 60
  let h := t / 3600000 % 24
  let c := civilFromDays (t / 86400000)
  toString c.1 ++ "-" ++ pad2 c.2.1 ++ "-" ++ pad2 c.2.2 ++ "T" ++
    pad2 h ++ ":" ++ pad2 mi ++ ":" ++ pad2 s ++ "." ++ pad3 ms ++ "Z"

/-- The `YYYY-MM-DD` substring used in log file names (the source builds it
from `getFullYear`/`getMonth`/`getDate`; modelled in UTC). -/
def dateStringOf (t : Nat) : String :=
  let c := civilFromDays (t / 86400000)
  toString c.1 ++ "-" ++ pad2 c.2.1 ++ "-" ++ pad2 c.2.2

/-- Escape one character for a JSON string literal. -/
def jsonEscapeChar (c : Char) : String :=
  if c = '"' then "\\\""
  else if c = '\\' then "\\\\"
  else if c = '\n' then "\\n"
  else if c = '\r' then "\\r"
  else if c = '\t' then "\\t"
  else String.singleton c

/-- A JSON string literal for `s`. -/
def jsonQuote (s : String) : String :=
  "\"" ++ String.join (s.toList.map jsonEscapeChar) ++ "\""

mutual

/-- `JSON.stringify` (compact form) on the modelled values.  `undefined` is
rendered as `null` (its behaviour inside an array, the only position in
which the embedded record builder can meet it); a `Date` serializes via its
`toJSON`/ISO form; an `Error` has no enumerable properties and serializes
as the empty object. -/
def jsonStringify : JsVal → String
  | .str s => jsonQuote s
  | .num n => toString n
  | .bool b => if b then "true" else "false"
  | .null => "null"
  | .undef => "null"
  | .arr xs => "[" ++ jsonList xs ++ "]"
  | .obj fs => "\x7b" ++ jsonFields fs ++ "\x7d"
  | .date t => jsonQuote (toISOString t)
  | .err _ => "\x7b\x7d"

/-- Comma-joined JSON renderings of a list of values. -/
def jsonList : List JsVal → String
  | [] => ""
  | [x] => jsonStringify x
  | x :: xs => jsonStringify x ++ "," ++ jsonList xs

/-- Comma-joined JSON renderings of object fields. -/
def jsonFields : List (String × JsVal) → String
  | [] => ""
  | [(k, v)] => jsonQuote k ++ ":" ++ jsonStringify v
  | (k, v) :: fs => jsonQuote k ++ ":" ++ jsonStringify v ++ "," ++ jsonFields fs

end

mutual

/-- JavaScript `String(v)` coercion, as exercised by `Array.prototype.join`
and template literals in the source.  Arrays join their elements with `,`,
`null`/`undefined` elements joining as the empty string; a plain object
coerces to `[object Object]`; an `Error` to `Error: <message>`.  `String`
of a `Date` is locale-dependent in JavaScript and is not exercised by any
claim; it is modelled by the ISO rendering to keep the function total and
deterministic. -/
def jsToString : JsVal → String
  | .str s => s
  | .num n => toString n
  | .bool b => if b then "true" else "false"
  | .null => "null"
  | .undef => "undefined"
  | .arr xs => jsJoinComma xs
  | .obj _ => "[object Object]"
  | .date t => toISOString t
  | .err m => "Error: " ++ m

/-- `Array.prototype.join(",")`: `null` and `undefined` elements become
empty strings. -/
def jsJoinComma : List JsVal → String
  | [] => ""
  | [x] => (match x with | .null => "" | .undef => "" | v => jsToString v)
  | x :: xs =>
      (match x with | .null => "" | .undef => "" | v => jsToString v) ++ "," ++ jsJoinComma xs

end

/-- `Array.prototype.join(", ")`, as used by the value formatter on array
payload elements (`arg.join(", ")`). -/
def jsJoinCommaSpace : List JsVal → String
  | [] => ""
  | [x] => (match x with | .null => "" | .undef => "" | v => jsToString v)
  | x :: xs =>
      (match x with | .null => "" | .undef => "" | v => jsToString v) ++ ", " ++ jsJoinCommaSpace xs

/-- The `formatDate` option: either the name of a `Date` method
(`string`) or an injected formatting function (`$E.FormatDate`), which may
throw. -/
inductive DateStrategy where
  | byName (nm : String)
  | byFn (f : Nat → Except JsErr String)

/-- The `Date` built-in method table consulted by
`(date[format as keyof Date] as Function)()`.  Modelled restricted to the
engine's default `toISOString`; every other name behaves as an absent
method, so that invoking it raises a `TypeError` — exactly the behaviour
the claims exercise for an invalid strategy name. -/
def dateBuiltins (nm : String) : Option (Nat → String) :=
  if nm = "toISOString" then some toISOString else none

/-- Run a date strategy on an instant: an injected function is applied
directly (it may throw); a name is looked up on `Date`, a missing method
raising `TypeError` (`date[nm]` is `undefined`, and calling it throws). -/
def runStrategy (s : DateStrategy) (d : Nat) : Except JsErr String :=
  match s with
  | .byFn f => f d
  | .byName nm =>
      match dateBuiltins nm with
      | some m => .ok (m d)
      | none => .error (.typeError "date[format] is not a function")

/-- `$E.Trace` — the trace/group options on a level.  `groupPfx` embeds the
source field `groupPrefix`. -/
structure TraceCfg where
  groupLabel : Option String := none
  groupPfx : Option String := none
  format : Option (List String) := none

/-- `$E.Level` — a logging level definition.  `pfx` embeds the source field
`prefix`; `logToFile` is the source's `boolean | string | undefined`;
`formatToString` is the user file renderer, which may throw. -/
structure Level where
  label : String
  pfx : Option String := none
  format : Option (List String) := none
  logToFile : Option (Sum Bool String) := none
  trace : Option TraceCfg := none
  consoleMethodName : Option String := none
  consoleTimestamps : Option Bool := none
  methodName : Option String := none
  formatToString : Option (List JsVal → Except JsErr String) := none

/-- The instance's `#options` after the constructor merged caller options
over the built-in defaults: every field is present.  `outputDirectory` is
`none` when file logging is disabled (`false` in the source). -/
structure OptionsRec where
  synchronous : Bool
  outputDirectory : Option String
  outputFileExtension : String
  formatArgs : Bool
  formatDate : DateStrategy
  consoleTimestamps : Bool

/-- Caller-supplied `$E.Options`: every field optional (`none` = the key is
absent from the object). -/
structure OptionsIn where
  synchronous : Option Bool := none
  outputDirectory : Option (Option String) := none
  outputFileExtension : Option String := none
  formatArgs : Option Bool := none
  formatDate : Option DateStrategy := none
  consoleTimestamps : Option Bool := none

/-- The engine's `#default_options`. -/
def defaultOptions : OptionsRec where
  synchronous := false
  outputDirectory := some "./logs"
  outputFileExtension := "log"
  formatArgs := true
  formatDate := .byName "toISOString"
  consoleTimestamps := true

/-- `{...this.#default_options, ...config.options}` — the object-spread
merge: a key present on the caller object wins, an absent key falls back to
the default value. -/
def mergeOptions (o : OptionsIn) : OptionsRec where
  synchronous := o.synchronous.getD defaultOptions.synchronous
  outputDirectory := o.outputDirectory.getD defaultOptions.outputDirectory
  outputFileExtension := o.outputFileExtension.getD defaultOptions.outputFileExtension
  formatArgs := o.formatArgs.getD defaultOptions.formatArgs
  formatDate := o.formatDate.getD defaultOptions.formatDate
  consoleTimestamps := o.consoleTimestamps.getD defaultOptions.consoleTimestamps

/-- The constructor's options assignment:
`(config.options) ? {...defaults, ...config.options} : defaults`
(an object is always truthy, so any supplied object is merged). -/
def mkOptions : Option OptionsIn → OptionsRec
  | none => defaultOptions
  | some o => mergeOptions o

/-- `$E.Config` as accepted by the constructor. -/
structure ConfigIn where
  levels : Option (List Level) := none
  options : Option OptionsIn := none

/-- The engine's `#default_levels` (single `log` level). -/
def defaultLevels : List Level := [{ label := "log", pfx := some "[-]" }]

/-- A constructed logger instance: the closed level registry and the merged
options, both read-only after construction. -/
structure EudorosInst where
  levels : List Level
  options : OptionsRec

/-- The constructor: `#levels = config?.levels || #default_levels` (an
array is always truthy, so any supplied array — even empty — is kept) and
the options merge above. -/
def mkEudoros (c : ConfigIn) : EudorosInst where
  levels := c.levels.getD defaultLevels
  options := mkOptions c.options

/-- One internal error report, the block the reporter prints:
the descriptive message, the timestamp it rendered, and the causing
object passed to `console.trace`, if any. -/
structure Report where
  msg : String
  timestamp : String
  payload : Option JsVal
deriving Repr

/-- `this.#options?.formatDate || this.#default_options.formatDate` — the
`||` falls through on a falsy strategy, which among the representable
strategies is exactly the empty method name. -/
def jsOrStrat (s : DateStrategy) : DateStrategy :=
  match s with
  | .byName "" => .byName "toISOString"
  | s => s

/-- Render a `JsErr` as the value the source would pass along to the
reporter. -/
def jsErrVal (e : JsErr) : JsVal :=
  match e with
  | .typeError m => .err m
  | .userThrow m => .err m
  | .stackOverflow => .err "Maximum call stack size exceeded"

mutual

/-- `#formatDate` (current engine): resolve the strategy with a `||`
fallback to the default, try it; on a throw, report via
`#internalErrorLog` and return the default `toISOString` rendering.  The
report call happens before the fallback return, and the reporter itself
formats a timestamp with the same strategy — the two functions are
mutually recursive, hence the fuel; fuel exhaustion models stack overflow.
Returns the reports emitted and the produced string (or the escaping
exception). -/
def formatDate : Nat → OptionsRec → Nat → Nat → List Report × Except JsErr String
  | 0, _, _, _ => ([], .error .stackOverflow)
  | n + 1, o, now, d =>
      match runStrategy (jsOrStrat o.formatDate) d with
      | .ok s => ([], .ok s)
      | .error _ =>
          match internalErrorLog n o now "Cannot format date! Falling back to default format" (some (.date d)) with
          | (r, .error e) => (r, .error e)
          | (r, .ok _) => (r, .ok (toISOString d))

/-- `#internalErrorLog`: print the visually distinct report block.  Its
group header interpolates `this.#formatDate(new Date())`; if that throws,
the block is never printed and the exception escapes the reporter. -/
def internalErrorLog : Nat → OptionsRec → Nat → String → Option JsVal → List Report × Except JsErr Unit
  | 0, _, _, _, _ => ([], .error .stackOverflow)
  | n + 1, o, now, msg, pl =>
      match formatDate n o now now with
      | (r, .error e) => (r, .error e)
      | (r, .ok ts) => (r ++ [{ msg := msg, timestamp := ts, payload := pl }], .ok ())

end

/-- Effective console-timestamp visibility:
`(level?.consoleTimestamps !== undefined) ? level.consoleTimestamps :
this.#options?.consoleTimestamps`. -/
def effTimestamps (o : OptionsRec) (lv : Level) : Bool :=
  match lv.consoleTimestamps with
  | some b => b
  | none => o.consoleTimestamps

/-- The level's `format` decoration array, defaulted:
`(level.format && Array.isArray(level.format) && level.format.length > 0)
? level.format : ['', '']`. -/
def levelFmt (lv : Level) : List String :=
  match lv.format with
  | some f => if f.length > 0 then f else ["", ""]
  | none => ["", ""]

/-- The trace decoration array used by the group renderer.  The source
guards on `level.trace.format && Array.isArray(level.format) &&
level.trace.format.length > 0` — note the middle conjunct reads the
*level's* `format`, so a trace `format` is only honoured when the level
also carries a `format` array. -/
def traceFmt (lv : Level) (tr : TraceCfg) : List String :=
  match tr.format, lv.format with
  | some tf, some _ => if tf.length > 0 then tf else ["", ""]
  | _, _ => ["", ""]

/-- The decorated-timestamp fragment
`withTimestamp ? `${format[0]}${this.#formatDate(new Date())}${format[1]}` + " " : ''`
(shared verbatim by `#formatGroup` and `#formatPayload`). -/
def timestampPart (fuel : Nat) (o : OptionsRec) (now : Nat) (fmt : List String)
    (withTimestamp : Bool) : List Report × Except JsErr String :=
  if withTimestamp then
    match formatDate fuel o now now with
    | (r, .error e) => (r, .error e)
    | (r, .ok ds) => (r, .ok (fmt.getD 0 "" ++ ds ++ fmt.getD 1 "" ++ " "))
  else ([], .ok "")

/-- The decorated domain tag:
`domain ? `${format[0]}[${domain}]${format[1]}` + " " : ''`
(an empty string is falsy and produces no tag). -/
def domainTag (fmt : List String) (domain : Option String) : String :=
  match domain with
  | some dm => if dm ≠ "" then fmt.getD 0 "" ++ "[" ++ dm ++ "]" ++ fmt.getD 1 "" ++ " " else ""
  | none => ""

/-- `#formatGroup`: the header line for trace-grouped output.  Without a
trace config it reports internally and returns a sentinel string.  With
one, it composes `prefix+timestamp+domain+label` where
`prefix = level.trace.groupPrefix + " " || ''` — string concatenation is
never falsy, so the `|| ''` is dead and an absent `groupPrefix` coerces to
the literal text `undefined`. -/
def formatGroup (fuel : Nat) (o : OptionsRec) (now : Nat) (lv : Level)
    (domain : Option String) : List Report × Except JsErr String :=
  match lv.trace with
  | none =>
      match internalErrorLog fuel o now
          ("Cannot format trace on `" ++ lv.label ++ "`, no trace config defined!") none with
      | (r, .error e) => (r, .error e)
      | (r, .ok _) => (r, .ok "<Format group error!>")
  | some tr =>
      let pfxStr := (match tr.groupPfx with | some p => p | none => "undefined") ++ " "
      let lbl := tr.groupLabel.getD ""
      let fmt := traceFmt lv tr
      match timestampPart fuel o now fmt (effTimestamps o lv) with
      | (r, .error e) => (r, .error e)
      | (r, .ok ts) => (r, .ok (pfxStr ++ ts ++ domainTag fmt domain ++ lbl))

/-- One payload value through the value-formatter map of `#formatPayload`:
numbers, arrays, dates and plain objects are optionally wrapped in their
colour bands; `Error`s pass through (the join then coerces them);
strings/booleans are returned unchanged.  `null` has `typeof 'object'` and
lands in the JSON branch. -/
def renderArg (fuel : Nat) (o : OptionsRec) (now : Nat) (fa : Bool) :
    JsVal → List Report × Except JsErr String
  | .num n => ([], .ok (if fa then "\x1b[33m" ++ toString n ++ "\x1b[0m" else toString n))
  | .arr xs =>
      ([], .ok (if fa then "\x1b[32m" ++ jsJoinCommaSpace xs ++ "\x1b[0m" else jsJoinCommaSpace xs))
  | .date t =>
      match formatDate fuel o now t with
      | (r, .error e) => (r, .error e)
      | (r, .ok ds) => (r, .ok (if fa then "\x1b[35m" ++ ds ++ "\x1b[0m" else ds))
  | .err m => ([], .ok ("Error: " ++ m))
  | .null => ([], .ok (if fa then "\x1b[36m" ++ "null" ++ "\x1b[0m" else "null"))
  | .obj fs =>
      ([], .ok (if fa then "\x1b[36m" ++ jsonStringify (.obj fs) ++ "\x1b[0m"
                else jsonStringify (.obj fs)))
  | .str s => ([], .ok s)
  | .bool b => ([], .ok (if b then "true" else "false"))
  | .undef => ([], .ok "")

/-- The trace pop of `#formatPayload`:
`if (level?.trace && payload.length > 1) payload.pop()` — on a
trace-enabled level the last element is removed, but only when the payload
has more than one element.  (The pop mutates `#formatPayload`'s own
rest-parameter array, a per-call copy produced by the caller's spread.) -/
def consoleBodyArgs (lv : Level) (xs : List JsVal) : List JsVal :=
  if lv.trace.isSome && decide (1 < xs.length) then xs.dropLast else xs

/-- Map `renderArg` over a list, threading reports and exceptions. -/
def renderList (fuel : Nat) (o : OptionsRec) (now : Nat) (fa : Bool) :
    List JsVal → List Report × Except JsErr (List String)
  | [] => ([], .ok [])
  | v :: vs =>
      match renderArg fuel o now fa v with
      | (r, .error e) => (r, .error e)
      | (r, .ok s) =>
          match renderList fuel o now fa vs with
          | (r2, .error e) => (r ++ r2, .error e)
          | (r2, .ok ss) => (r ++ r2, .ok (s :: ss))

/-- The default body pipeline of `#formatPayload` on an array payload:
trace pop, filter out `undefined`, render each value, join with `" / "`. -/
def renderBody (fuel : Nat) (o : OptionsRec) (now : Nat) (lv : Level)
    (xs : List JsVal) : List Report × Except JsErr String :=
  let kept := (consoleBodyArgs lv xs).filter (fun a => !isUndef a)
  match renderList fuel o now o.formatArgs kept with
  | (r, .error e) => (r, .error e)
  | (r, .ok ss) => (r, .ok (String.intercalate " / " ss))

/-- `level.prefix ? level.prefix + " " : ''`. -/
def levelPfxStr (lv : Level) : String :=
  match lv.pfx with
  | some p => if p ≠ "" then p ++ " " else ""
  | none => ""

/-- The final line composition of `#formatPayload`:
trace levels reduce to `prefix + payload`; otherwise
`prefix + timestamp + domain + format[2] + payload + format[3]`. -/
def composeLine (lv : Level) (fmt : List String) (ts : String)
    (domain : Option String) (payloadStr : String) : String :=
  if lv.trace.isSome then levelPfxStr lv ++ payloadStr
  else levelPfxStr lv ++ ts ++ domainTag fmt domain ++ fmt.getD 2 "" ++ payloadStr ++ fmt.getD 3 ""

/-- `#formatPayload`: timestamp fragment first, then the payload branch —
a `formatToString` renderer (called on the raw, un-popped payload; a throw
is reported and leaves the payload as the raw array, which the final
template coerces via `String()`), else the default body pipeline — then
the line composition. -/
def formatPayload (fuel : Nat) (o : OptionsRec) (now : Nat) (lv : Level)
    (domain : Option String) (args : List JsVal) : List Report × Except JsErr String :=
  let fmt := levelFmt lv
  match timestampPart fuel o now fmt (effTimestamps o lv) with
  | (r, .error e) => (r, .error e)
  | (r0, .ok ts) =>
      match lv.formatToString with
      | some f =>
          match f args with
          | .ok s => (r0, .ok (composeLine lv fmt ts domain s))
          | .error e =>
              match internalErrorLog fuel o now
                  ("Error in provided `formatToString()` function on `" ++ lv.label ++ "`!")
                  (some (jsErrVal e)) with
              | (r1, .error e2) => (r0 ++ r1, .error e2)
              | (r1, .ok _) => (r0 ++ r1, .ok (composeLine lv fmt ts domain (jsJoinComma args)))
      | none =>
          match renderBody fuel o now lv args with
          | (r1, .error e) => (r0 ++ r1, .error e)
          | (r1, .ok body) => (r0 ++ r1, .ok (composeLine lv fmt ts domain body))

/-- `isValidMethod`: the `console` channels the engine accepts. -/
def isValidMethod (m : String) : Bool :=
  ["log", "info", "error", "warn", "debug"].contains m

/-- The console-sink resolution of `#handleLog`: the level's explicit
`consoleMethodName` when truthy and valid; else the level's own label when
it is itself a valid channel; else the default `log`. -/
def resolveConsoleMethod (lv : Level) : String :=
  match lv.consoleMethodName with
  | some m =>
      if m ≠ "" && isValidMethod m then m
      else if isValidMethod lv.label then lv.label else "log"
  | none => if isValidMethod lv.label then lv.label else "log"

/-- The structured file record (`$E.FilePayloadHead` plus `args`). -/
structure FileRecord where
  timestamp : String
  level : String
  domain : Option String
  args : List JsVal

/-- `JSON.stringify({...lineHead, args})`: compact JSON in insertion order
`timestamp, level, [domain,] args`, the `domain` key present only when it
was set on the head. -/
def serializeRecord (rec : FileRecord) : String :=
  "\x7b" ++ jsonQuote "timestamp" ++ ":" ++ jsonQuote rec.timestamp ++ ","
    ++ jsonQuote "level" ++ ":" ++ jsonQuote rec.level
    ++ (match rec.domain with
        | some d => "," ++ jsonQuote "domain" ++ ":" ++ jsonQuote d
        | none => "")
    ++ "," ++ jsonQuote "args" ++ ":" ++ jsonStringify (.arr rec.args) ++ "\x7d"

/-- One append issued to the file sink: the target path and the data
(serialized record plus CRLF).  `fs.appendFile` is fire-and-forget: a sink
error reaches the engine only through the callback, never as a throw. -/
structure FileWrite where
  path : String
  record : FileRecord
  data : String

/-- Truthiness of `#options.outputDirectory` (`false`, absent, or the
empty string disable file logging). -/
def dirTruthy : Option String → Bool
  | none => false
  | some s => s ≠ ""

/-- Truthiness of `level.logToFile` (`false`, absent, or the empty-string
suffix are falsy). -/
def logToFileTruthy : Option (Sum Bool String) → Bool
  | none => false
  | some (.inl b) => b
  | some (.inr s) => s ≠ ""

/-- `if (domain) lineHead.domain = domain` — the head's `domain` key is set
only for a truthy (non-empty) domain. -/
def recDomain : Option String → Option String
  | some d => if d ≠ "" then some d else none
  | none => none

/-- The append issued by `#logToFile` once the head timestamp `ts` is
formatted: the record in insertion order, the serialized line plus CRLF,
and the target path (per-level stem for a string-typed `logToFile`, shared
stem otherwise). -/
def buildFileWrite (o : OptionsRec) (now : Nat) (lv : Level)
    (domain : Option String) (xs : List JsVal) (ts : String) : FileWrite :=
  let rcd : FileRecord :=
    { timestamp := ts, level := lv.label, domain := recDomain domain, args := xs }
  let fileName := match lv.logToFile with
    | some (.inr _) => lv.label ++ "-log-" ++ dateStringOf now
    | _ => "log-" ++ dateStringOf now
  { path := o.outputDirectory.getD "" ++ "/" ++ fileName ++ "." ++ o.outputFileExtension
    record := rcd
    data := serializeRecord rcd ++ "\r\n" }

/-- `#logToFile`: re-checks the output directory (reporting when falsy),
formats the head timestamp, sets `domain` on the head only when truthy,
serializes, and issues the append with the per-level or shared file name.
A suffixed `logToFile` (string, `typeof === "string"`) selects
`<label>-log-<date>`, a boolean selects `log-<date>`. -/
def logToFile (fuel : Nat) (o : OptionsRec) (now : Nat) (lv : Level)
    (domain : Option String) (args : List JsVal) :
    List Report × Except JsErr (Option FileWrite) :=
  if dirTruthy o.outputDirectory = false then
    match internalErrorLog fuel o now
        "Cannot log to file! Configuration error, failed to load defaults." none with
    | (r, .error e) => (r, .error e)
    | (r, .ok _) => (r, .ok none)
  else
    match formatDate fuel o now now with
    | (r, .error e) => (r, .error e)
    | (r, .ok ts) => (r, .ok (some (buildFileWrite o now lv domain args ts)))

/-- One emission on the console sink. -/
inductive Emission where
  | group (hdr : String)
  | line (method : String) (msg : String)
  | traceOut (v : JsVal)
  | groupEnd

/-- The `send` closure of `#handleLog`: for a trace level, open a group
with the `#formatGroup` header (an exception from it is raised while
evaluating `console.group`'s argument, so nothing is emitted), print the
body through the resolved channel, `console.trace` the original last
argument only when it is truthy, close the group; otherwise just print the
body. -/
def sendConsole (fuel : Nat) (o : OptionsRec) (now : Nat) (lv : Level)
    (domain : Option String) (message : String) (method : String)
    (args : List JsVal) : List Report × List Emission × Except JsErr Unit :=
  let traceV := (args.getLast?).getD .undef
  match lv.trace with
  | some _ =>
      match formatGroup fuel o now lv domain with
      | (r, .error e) => (r, [], .error e)
      | (r, .ok hdr) =>
          (r, [.group hdr, .line method message]
              ++ (if jsTruthy traceV then [.traceOut traceV] else []) ++ [.groupEnd], .ok ())
  | none => ([], [.line method message], .ok ())

/-- The observable work of one `#handleLog` body: reports, console
emissions, the file append (if any), the rejection of the async body
(`bodyFault`), and an exception escaping the deferred `process.nextTick`
callback in asynchronous mode (`deferredFault`). -/
structure HandleOut where
  reports : List Report
  console : List Emission
  fileWrite : Option FileWrite
  bodyFault : Option JsErr
  deferredFault : Option JsErr

/-- `#handleLog`: render the payload, resolve the channel, dispatch the
console output inline (synchronous mode) or on the next tick
(asynchronous mode, in which the body registers the tick and proceeds to
the file step, so a send fault surfaces later as an uncaught tick
exception while the file step still runs), then issue the file append when
both `level.logToFile` and the output directory are truthy. -/
def handleLog (fuel : Nat) (o : OptionsRec) (now : Nat) (lv : Level)
    (domain : Option String) (args : List JsVal) : HandleOut :=
  match formatPayload fuel o now lv domain args with
  | (r1, .error e) =>
      { reports := r1, console := [], fileWrite := none, bodyFault := some e, deferredFault := none }
  | (r1, .ok message) =>
      let method := resolveConsoleMethod lv
      let fileStep : List Report × Except JsErr (Option FileWrite) :=
        if logToFileTruthy lv.logToFile && dirTruthy o.outputDirectory then
          logToFile fuel o now lv domain args
        else ([], .ok none)
      if o.synchronous = false then
        let s := sendConsole fuel o now lv domain message method args
        match fileStep with
        | (r3, .error e) =>
            { reports := r1 ++ r3 ++ s.1, console := s.2.1, fileWrite := none,
              bodyFault := some e,
              deferredFault := match s.2.2 with | .error e2 => some e2 | .ok _ => none }
        | (r3, .ok fw) =>
            { reports := r1 ++ r3 ++ s.1, console := s.2.1, fileWrite := fw,
              bodyFault := none,
              deferredFault := match s.2.2 with | .error e2 => some e2 | .ok _ => none }
      else
        match sendConsole fuel o now lv domain message method args with
        | (r2, ems, .error e) =>
            { reports := r1 ++ r2, console := ems, fileWrite := none,
              bodyFault := some e, deferredFault := none }
        | (r2, ems, .ok _) =>
            match fileStep with
            | (r3, .error e) =>
                { reports := r1 ++ r2 ++ r3, console := ems, fileWrite := none,
                  bodyFault := some e, deferredFault := none }
            | (r3, .ok fw) =>
                { reports := r1 ++ r2 ++ r3, console := ems, fileWrite := fw,
                  bodyFault := none, deferredFault := none }

/-- The semantics of invoking an `async` JavaScript function: the call
itself never throws synchronously; the body's fault is delivered through
the returned promise. -/
def asyncCall (body : HandleOut) : Option JsErr × HandleOut := (none, body)

/-- The caller-visible outcome of one generated entry-point call. -/
structure CallOutcome where
  callerFault : Option JsErr
  handle : HandleOut
  unhandled : Option JsErr

/-- A generated per-level entry point (from `#initLevels`): both calling
conventions wrap `this.#handleLog(level, undefined, ...args)` in
`try`/`catch`; `#handleLog` is `async`, so the call cannot throw
synchronously and a body fault becomes a promise rejection, which the
awaitless `try`/`catch` never observes — it stays unhandled. -/
def invokeEntry (fuel : Nat) (o : OptionsRec) (now : Nat) (lv : Level)
    (args : List JsVal) : CallOutcome :=
  let c := asyncCall (handleLog fuel o now lv none args)
  { callerFault := c.1, handle := c.2, unhandled := c.2.bodyFault }

/-- The caller-visible outcome of one `withDomain` call. -/
structure DomainOutcome where
  callerFault : Option JsErr
  reports : List Report
  dispatched : Option HandleOut
  unhandled : Option JsErr

/-- `withDomain(level, domain, ...args)`: exact, case-sensitive label
lookup; on a hit, dispatch through the async `#handleLog` with the domain
(no synchronous throw possible); on a miss, call the reporter directly in
the caller's synchronous frame — a throw inside it would reach the
caller. -/
def withDomainCall (fuel : Nat) (inst : EudorosInst) (now : Nat)
    (lbl dom : String) (args : List JsVal) : DomainOutcome :=
  match inst.levels.find? (fun l => l.label == lbl) with
  | some lv =>
      let c := asyncCall (handleLog fuel inst.options now lv (some dom) args)
      { callerFault := c.1, reports := c.2.reports, dispatched := some c.2,
        unhandled := c.2.bodyFault }
  | none =>
      match internalErrorLog fuel inst.options now
          ("Invalid log level `" ++ lbl ++ "` provided!") none with
      | (r, .error e) =>
          { callerFault := some e, reports := r, dispatched := none, unhandled := none }
      | (r, .ok _) =>
          { callerFault := none, reports := r, dispatched := none, unhandled := none }

/-- One dispatch as a transition on the instance: the registry and options
are `readonly` and the engine holds no other state — the only mutation in
the source is `payload.pop()` on `#formatPayload`'s per-call copy of the
arguments. -/
def dispatchCall (fuel : Nat) (inst : EudorosInst) (now : Nat) (lv : Level)
    (domain : Option String) (args : List JsVal) : EudorosInst × HandleOut :=
  (inst, handleLog fuel inst.options now lv domain args)

/-! ### Helper lemmas -/

/-- A configuration whose (resolved) date strategy succeeds on every
instant — e.g. the default `toISOString`. -/
def DateOk (o : OptionsRec) : Prop :=
  ∀ d, ∃ s, runStrategy (jsOrStrat o.formatDate) d = Except.ok s

lemma dateOk_default : DateOk defaultOptions := fun d => ⟨toISOString d, rfl⟩

lemma formatDate_ok {o : OptionsRec} (h : DateOk o) (n now d : Nat) :
    ∃ s, formatDate (n + 1) o now d = ([], .ok s) := by
  obtain ⟨s, hs⟩ := h d
  exact ⟨s, by simp [formatDate, hs]⟩

lemma internalErrorLog_ok {o : OptionsRec} (h : DateOk o) (n now : Nat)
    (msg : String) (pl : Option JsVal) :
    ∃ ts, internalErrorLog (n + 2) o now msg pl =
      ([{ msg := msg, timestamp := ts, payload := pl }], .ok ()) := by
  obtain ⟨s, hs⟩ := formatDate_ok h n now now
  exact ⟨s, by simp [internalErrorLog, hs]⟩

lemma timestampPart_ok {o : OptionsRec} (h : DateOk o) (n now : Nat)
    (fmt : List String) (wt : Bool) :
    ∃ ts, timestampPart (n + 1) o now fmt wt = ([], .ok ts) := by
  cases wt with
  | false => exact ⟨"", rfl⟩
  | true =>
      obtain ⟨s, hs⟩ := formatDate_ok h n now now
      exact ⟨fmt.getD 0 "" ++ s ++ fmt.getD 1 "" ++ " ", by simp [timestampPart, hs]⟩

lemma renderArg_ok {o : OptionsRec} (h : DateOk o) (n now : Nat) (fa : Bool)
    (v : JsVal) : ∃ s, renderArg (n + 1) o now fa v = ([], .ok s) := by
  cases v with
  | date t =>
      obtain ⟨s, hs⟩ := formatDate_ok h n now t
      exact ⟨if fa then "\x1b[35m" ++ s ++ "\x1b[0m" else s, by simp [renderArg, hs]⟩
  | str s => exact ⟨s, rfl⟩
  | num k => exact ⟨_, rfl⟩
  | bool b => exact ⟨_, rfl⟩
  | null => exact ⟨_, rfl⟩
  | undef => exact ⟨_, rfl⟩
  | arr xs => exact ⟨_, rfl⟩
  | obj fs => exact ⟨_, rfl⟩
  | err m => exact ⟨_, rfl⟩

lemma renderList_ok {o : OptionsRec} (h : DateOk o) (n now : Nat) (fa : Bool) :
    ∀ vs : List JsVal, ∃ ss, renderList (n + 1) o now fa vs = ([], .ok ss) := by
  intro vs
  induction vs with
  | nil => exact ⟨[], rfl⟩
  | cons v vs ih =>
      obtain ⟨s, hs⟩ := renderArg_ok h n now fa v
      obtain ⟨ss, hss⟩ := ih
      exact ⟨s :: ss, by simp [renderList, hs, hss]⟩

lemma renderBody_ok {o : OptionsRec} (h : DateOk o) (n now : Nat) (lv : Level)
    (xs : List JsVal) : ∃ s, renderBody (n + 1) o now lv xs = ([], .ok s) := by
  obtain ⟨ss, hss⟩ := renderList_ok h n now o.formatArgs
    ((consoleBodyArgs lv xs).filter (fun a => !isUndef a))
  exact ⟨String.intercalate " / " ss, by simp [renderBody, hss]⟩

lemma formatPayload_ok {o : OptionsRec} (h : DateOk o) (n now : Nat) (lv : Level)
    (domain : Option String) (xs : List JsVal) :
    ∃ r s, formatPayload (n + 2) o now lv domain xs = (r, .ok s) := by
  obtain ⟨ts, hts⟩ := timestampPart_ok h (n + 1) now (levelFmt lv) (effTimestamps o lv)
  cases hfts : lv.formatToString with
  | none =>
      obtain ⟨body, hb⟩ := renderBody_ok h (n + 1) now lv xs
      exact ⟨[], composeLine lv (levelFmt lv) ts domain body,
        by simp [formatPayload, hts, hfts, hb]⟩
  | some f =>
      cases hf : f xs with
      | ok s =>
          refine ⟨[], composeLine lv (levelFmt lv) ts domain s, ?_⟩
          simp [formatPayload, hts, hfts, hf]
      | error e =>
          obtain ⟨ts2, h2⟩ := internalErrorLog_ok h n now
            ("Error in provided `formatToString()` function on `" ++ lv.label ++ "`!")
            (some (jsErrVal e))
          refine ⟨[{ msg := "Error in provided `formatToString()` function on `"
                      ++ lv.label ++ "`!", timestamp := ts2, payload := some (jsErrVal e) }],
                  composeLine lv (levelFmt lv) ts domain (jsJoinComma xs), ?_⟩
          simp [formatPayload, hts, hfts, hf, h2]

lemma formatGroup_ok {o : OptionsRec} (h : DateOk o) (n now : Nat) (lv : Level)
    (domain : Option String) :
    ∃ r s, formatGroup (n + 2) o now lv domain = (r, .ok s) := by
  cases htr : lv.trace with
  | none =>
      obtain ⟨ts, h2⟩ := internalErrorLog_ok h n now
        ("Cannot format trace on `" ++ lv.label ++ "`, no trace config defined!") none
      refine ⟨[{ msg := "Cannot format trace on `" ++ lv.label
                  ++ "`, no trace config defined!", timestamp := ts, payload := none }],
              "<Format group error!>", ?_⟩
      simp [formatGroup, htr, h2]
  | some tr =>
      obtain ⟨ts, hts⟩ := timestampPart_ok h (n + 1) now (traceFmt lv tr) (effTimestamps o lv)
      refine ⟨[], (match tr.groupPfx with | some p => p | none => "undefined") ++ " "
                ++ ts ++ domainTag (traceFmt lv tr) domain ++ tr.groupLabel.getD "", ?_⟩
      simp [formatGroup, htr, hts]

lemma sendConsole_ok {o : OptionsRec} (h : DateOk o) (n now : Nat) (lv : Level)
    (domain : Option String) (message method : String) (xs : List JsVal) :
    ∃ r ems, sendConsole (n + 2) o now lv domain message method xs = (r, ems, .ok ()) := by
  cases htr : lv.trace with
  | none => exact ⟨[], [.line method message], by simp [sendConsole, htr]⟩
  | some tr =>
      obtain ⟨r, hdr, hg⟩ := formatGroup_ok h n now lv domain
      refine ⟨r, [.group hdr, .line method message]
            ++ (if jsTruthy ((xs.getLast?).getD .undef) then [.traceOut ((xs.getLast?).getD .undef)] else [])
            ++ [.groupEnd], ?_⟩
      simp [sendConsole, htr, hg]

lemma logToFile_ok {o : OptionsRec} (h : DateOk o) (n now : Nat) (lv : Level)
    (domain : Option String) (xs : List JsVal)
    (hdir : dirTruthy o.outputDirectory = true) :
    ∃ ts, logToFile (n + 1) o now lv domain xs
        = ([], .ok (some (buildFileWrite o now lv domain xs ts))) := by
  obtain ⟨s, hs⟩ := formatDate_ok h n now now
  exact ⟨s, by simp [logToFile, hdir, hs]⟩

/-- Under a benign date strategy and sufficient stack, one `#handleLog`
body completes with no fault anywhere: the payload renders, the console
dispatch is exactly the `send` emissions, and the file append happens
precisely when both `level.logToFile` and the output directory are
truthy. -/
lemma handleLog_fields {o : OptionsRec} (h : DateOk o) (n now : Nat) (lv : Level)
    (domain : Option String) (xs : List JsVal) :
    ∃ msg, (formatPayload (n + 2) o now lv domain xs).2 = .ok msg
      ∧ (handleLog (n + 2) o now lv domain xs).bodyFault = none
      ∧ (handleLog (n + 2) o now lv domain xs).deferredFault = none
      ∧ (handleLog (n + 2) o now lv domain xs).console
          = (sendConsole (n + 2) o now lv domain msg (resolveConsoleMethod lv) xs).2.1
      ∧ ((logToFileTruthy lv.logToFile && dirTruthy o.outputDirectory) = true →
          ∃ ts, (handleLog (n + 2) o now lv domain xs).fileWrite
              = some (buildFileWrite o now lv domain xs ts))
      ∧ ((logToFileTruthy lv.logToFile && dirTruthy o.outputDirectory) = false →
          (handleLog (n + 2) o now lv domain xs).fileWrite = none) := by
  obtain ⟨r1, msg, hfp⟩ := formatPayload_ok h n now lv domain xs
  obtain ⟨r2, ems, hsend⟩ := sendConsole_ok h n now lv domain msg (resolveConsoleMethod lv) xs
  cases hg : (logToFileTruthy lv.logToFile && dirTruthy o.outputDirectory) with
  | true =>
      have hdir : dirTruthy o.outputDirectory = true := by
        cases hb : dirTruthy o.outputDirectory
        · rw [hb] at hg; simp at hg
        · rfl
      obtain ⟨ts, hfile⟩ := logToFile_ok h (n + 1) now lv domain xs hdir
      cases hsy : o.synchronous with
      | false =>
          have hH : handleLog (n + 2) o now lv domain xs =
              { reports := r1 ++ [] ++ r2, console := ems,
                fileWrite := some (buildFileWrite o now lv domain xs ts),
                bodyFault := none, deferredFault := none } := by
            simp [handleLog, hfp, hsend, hfile, hg, hsy]
          refine ⟨msg, by simp [hfp], by simp [hH], by simp [hH], by simp [hH, hsend],
            fun _ => ⟨ts, by simp [hH]⟩, fun hc => Bool.noConfusion hc⟩
      | true =>
          have hH : handleLog (n + 2) o now lv domain xs =
              { reports := r1 ++ r2 ++ [], console := ems,
                fileWrite := some (buildFileWrite o now lv domain xs ts),
                bodyFault := none, deferredFault := none } := by
            simp [handleLog, hfp, hsend, hfile, hg, hsy]
          refine ⟨msg, by simp [hfp], by simp [hH], by simp [hH], by simp [hH, hsend],
            fun _ => ⟨ts, by simp [hH]⟩, fun hc => Bool.noConfusion hc⟩
  | false =>
      cases hsy : o.synchronous with
      | false =>
          have hH : handleLog (n + 2) o now lv domain xs =
              { reports := r1 ++ [] ++ r2, console := ems,
                fileWrite := none, bodyFault := none, deferredFault := none } := by
            simp [handleLog, hfp, hsend, hg, hsy]
          refine ⟨msg, by simp [hfp], by simp [hH], by simp [hH], by simp [hH, hsend],
            fun hc => Bool.noConfusion hc, fun _ => by simp [hH]⟩
      | true =>
          have hH : handleLog (n + 2) o now lv domain xs =
              { reports := r1 ++ r2 ++ [], console := ems,
                fileWrite := none, bodyFault := none, deferredFault := none } := by
            simp [handleLog, hfp, hsend, hg, hsy]
          refine ⟨msg, by simp [hfp], by simp [hH], by simp [hH], by simp [hH, hsend],
            fun hc => Bool.noConfusion hc, fun _ => by simp [hH]⟩

/-- Any file write `#handleLog` produces carries the full original payload,
the level label, and the truthiness-filtered domain — independent of the
date strategy or any user hook. -/
lemma handleLog_fileArgs (fuel : Nat) (o : OptionsRec) (now : Nat) (lv : Level)
    (domain : Option String) (xs : List JsVal) (fw : FileWrite)
    (hfw : (handleLog fuel o now lv domain xs).fileWrite = some fw) :
    fw.record.args = xs ∧ fw.record.level = lv.label
      ∧ fw.record.domain = recDomain domain := by
  have hlog : ∀ res : List Report × Except JsErr (Option FileWrite),
      res = logToFile fuel o now lv domain xs → res.2 = .ok (some fw) →
      fw.record.args = xs ∧ fw.record.level = lv.label ∧ fw.record.domain = recDomain domain := by
    intro res hres hok
    unfold logToFile at hres
    by_cases hd : dirTruthy o.outputDirectory = false
    · rw [if_pos hd] at hres
      rcases h2 : internalErrorLog fuel o now
          "Cannot log to file! Configuration error, failed to load defaults." none with ⟨r, e⟩
      rw [h2] at hres
      cases e <;> simp_all
    · rw [if_neg hd] at hres
      rcases h2 : formatDate fuel o now now with ⟨r, e⟩
      rw [h2] at hres
      cases e with
      | error e => simp_all
      | ok ts =>
          subst hres
          simp only [Except.ok.injEq, Option.some.injEq] at hok
          subst hok
          exact ⟨rfl, rfl, rfl⟩
  unfold handleLog at hfw
  rcases hfp : formatPayload fuel o now lv domain xs with ⟨r1, res1⟩
  rw [hfp] at hfw
  cases res1 with
  | error e => simp at hfw
  | ok message =>
      simp only at hfw
      by_cases hg : (logToFileTruthy lv.logToFile && dirTruthy o.outputDirectory) = true
      · rw [if_pos hg] at hfw
        by_cases hsy : o.synchronous = false
        · rw [if_pos hsy] at hfw
          rcases hfile : logToFile fuel o now lv domain xs with ⟨r3, res3⟩
          rw [hfile] at hfw
          cases res3 with
          | error e => simp at hfw
          | ok fwo =>
              simp only at hfw
              cases fwo with
              | none => simp at hfw
              | some fw2 =>
                  simp only [Option.some.injEq] at hfw
                  subst hfw
                  exact hlog (r3, .ok (some fw2)) hfile.symm rfl
        · rw [if_neg hsy] at hfw
          rcases hsend : sendConsole fuel o now lv domain message (resolveConsoleMethod lv) xs
            with ⟨r2, ems, res2⟩
          rw [hsend] at hfw
          cases res2 with
          | error e => simp at hfw
          | ok u =>
              simp only at hfw
              rcases hfile : logToFile fuel o now lv domain xs with ⟨r3, res3⟩
              rw [hfile] at hfw
              cases res3 with
              | error e => simp at hfw
              | ok fwo =>
                  simp only at hfw
                  cases fwo with
                  | none => simp at hfw
                  | some fw2 =>
                      simp only [Option.some.injEq] at hfw
                      subst hfw
                      exact hlog (r3, .ok (some fw2)) hfile.symm rfl
      · rw [if_neg hg] at hfw
        by_cases hsy : o.synchronous = false
        · rw [if_pos hsy] at hfw
          simp at hfw
        · rw [if_neg hsy] at hfw
          rcases hsend : sendConsole fuel o now lv domain message (resolveConsoleMethod lv) xs
            with ⟨r2, ems, res2⟩
          rw [hsend] at hfw
          cases res2 <;> simp at hfw

/-- A configuration whose resolved date strategy fails on every instant
keeps `#formatDate` and `#internalErrorLog` bouncing between each other
(the reporter re-enters the failing formatter) until the stack is
exhausted: at every fuel both return the stack-overflow exception and no
report is ever completed. -/
lemma dateFails_all (o : OptionsRec)
    (hbad : ∀ d s, runStrategy (jsOrStrat o.formatDate) d ≠ .ok s) :
    ∀ fuel, (∀ now d, formatDate fuel o now d = ([], .error .stackOverflow))
      ∧ (∀ now msg pl, internalErrorLog fuel o now msg pl = ([], .error .stackOverflow)) := by
  intro fuel
  induction fuel with
  | zero => exact ⟨fun _ _ => rfl, fun _ _ _ => rfl⟩
  | succ n ih =>
      constructor
      · intro now d
        cases hrs : runStrategy (jsOrStrat o.formatDate) d with
        | ok s => exact absurd hrs (hbad d s)
        | error e => simp [formatDate, hrs, ih.2]
      · intro now msg pl
        simp [internalErrorLog, ih.1]

/-! ### Claim theorems -/

/-- Instance used by the C1 witness: default construction. -/
def c1Inst : EudorosInst := mkEudoros {}

/-- Level used by the C1 witness. -/
def c1Lv : Level := { label := "log" }

/-- C1: no fault from inside the dispatch pipeline reaches the caller of a
generated entry point (either calling convention) or of `withDomain` with
a valid label as a thrown exception — in particular no synchronous throw,
for every level, payload, domain and configuration, including a throwing
`formatToString`, a broken `dateStrategy` and a disabled/unwritable output
directory (`#handleLog` is `async`, so every body fault is confined to the
promise); moreover, under a benign date strategy and sufficient stack the
body itself completes with no fault at all. -/
theorem eud_c1 (fuel : Nat) (inst : EudorosInst) (now : Nat) (lv : Level)
    (xs : List JsVal) (lbl dom : String)
    (hvalid : (inst.levels.find? (fun l => l.label == lbl)).isSome = true) :
    (invokeEntry fuel inst.options now lv xs).callerFault = none
    ∧ (withDomainCall fuel inst now lbl dom xs).callerFault = none
    ∧ (DateOk inst.options → 2 ≤ fuel →
        (invokeEntry fuel inst.options now lv xs).handle.bodyFault = none
        ∧ (invokeEntry fuel inst.options now lv xs).handle.deferredFault = none) := by
  refine ⟨rfl, ?_, ?_⟩
  · obtain ⟨lv2, hfind⟩ := Option.isSome_iff_exists.mp hvalid
    simp [withDomainCall, hfind, asyncCall]
  · intro hgood hfuel
    obtain ⟨m, rfl⟩ : ∃ m, fuel = m + 2 := ⟨fuel - 2, by omega⟩
    obtain ⟨msg, _, hbf, hdf, _, _, _⟩ := handleLog_fields hgood m now lv none xs
    exact ⟨hbf, hdf⟩

/-- C1 witness: the default instance, level `log`, a concrete payload. -/
theorem eud_c1_witness :
    ((c1Inst.levels.find? (fun l => l.label == "log")).isSome = true)
    ∧ ((invokeEntry 2 c1Inst.options 0 c1Lv [.str "hi"]).callerFault = none
      ∧ (withDomainCall 2 c1Inst 0 "log" "dom" [.str "hi"]).callerFault = none
      ∧ (DateOk c1Inst.options → 2 ≤ 2 →
          (invokeEntry 2 c1Inst.options 0 c1Lv [.str "hi"]).handle.bodyFault = none
          ∧ (invokeEntry 2 c1Inst.options 0 c1Lv [.str "hi"]).handle.deferredFault = none)) :=
  ⟨rfl, eud_c1 2 c1Inst 0 c1Lv [.str "hi"] "log" "dom" rfl⟩

/-- Configuration for the C2 counterexample: plain rendering, no console
timestamps. -/
def c2Cfg : OptionsRec := { defaultOptions with formatArgs := false, consoleTimestamps := false }

/-- Custom file renderer for the C2 counterexample: pipe-joins every
payload element it receives. -/
def c2Fts : List JsVal → Except JsErr String :=
  fun xs => .ok (String.intercalate "|" (xs.map jsToString))

/-- Trace-enabled level with a custom `formatToString`, for the C2
counterexample. -/
def c2Lv : Level := { label := "t", trace := some {}, formatToString := some c2Fts }

/-- C2 counterexample: on a trace-enabled level that carries a custom
`formatToString`, the console body is rendered from the full payload — with
payload `["a","b"]` the body is `"a|b"`, not the `"a"` that rendering after
removal of the last element would give — so "the console body rendering
removes exactly one element (the last one) before rendering", quantified
over every trace-enabled level, is false. -/
theorem eud_c2_cex :
    (formatPayload 2 c2Cfg 0 c2Lv none [.str "a", .str "b"]).2 = .ok "a|b"
    ∧ (formatPayload 2 c2Cfg 0 c2Lv none [.str "a"]).2 = .ok "a"
    ∧ ("a|b" : String) ≠ "a" := ⟨rfl, rfl, by decide⟩

/-- C2 (amended): for every trace-enabled level **without a custom
`formatToString` renderer**, the console body rendering removes exactly one
element — the last — when the payload has more than one element, and none
when it has one element or fewer; and for every trace-enabled level (with
or without a custom renderer) any file record produced for the call carries
the full, unmodified original payload. -/
theorem eud_c2 (fuel : Nat) (o : OptionsRec) (now : Nat) (lv : Level) (tr : TraceCfg)
    (dom : Option String) (xs : List JsVal) (ht : lv.trace = some tr) :
    (1 < xs.length → consoleBodyArgs lv xs = xs.dropLast
        ∧ (consoleBodyArgs lv xs).length + 1 = xs.length)
    ∧ (xs.length ≤ 1 → consoleBodyArgs lv xs = xs)
    ∧ (∀ fw, (handleLog fuel o now lv dom xs).fileWrite = some fw → fw.record.args = xs)
    ∧ (lv.formatToString = none → ∀ s, (formatPayload fuel o now lv dom xs).2 = .ok s →
        ∃ body, (renderBody fuel o now lv xs).2 = .ok body ∧ s = levelPfxStr lv ++ body) := by
  refine ⟨?_, ?_, ?_, ?_⟩
  · intro hlen
    have h1 : consoleBodyArgs lv xs = xs.dropLast := by
      simp [consoleBodyArgs, ht, hlen]
    refine ⟨h1, ?_⟩
    rw [h1, List.length_dropLast]
    omega
  · intro hlen
    simp [consoleBodyArgs, show ¬(1 < xs.length) from by omega]
  · intro fw hfw
    exact (handleLog_fileArgs fuel o now lv dom xs fw hfw).1
  · intro hfts s hs
    rcases htp : timestampPart fuel o now (levelFmt lv) (effTimestamps o lv) with ⟨r0, res0⟩
    simp only [formatPayload, htp, hfts] at hs
    cases res0 with
    | error e => simp at hs
    | ok ts =>
        rcases hrb : renderBody fuel o now lv xs with ⟨r1, res1⟩
        rw [hrb] at hs
        cases res1 with
        | error e => simp at hs
        | ok body =>
            simp only [Except.ok.injEq] at hs
            refine ⟨body, by simp [hrb], ?_⟩
            rw [← hs]
            simp [composeLine, ht]

/-- Level for the C2 witness: trace-enabled, default rendering, file
logging on. -/
def c2wLv : Level := { label := "t", trace := some {}, logToFile := some (.inl true) }

/-- C2 witness: the amended statement applied at a concrete trace level
and two-element payload. -/
theorem eud_c2_witness :
    c2wLv.trace = some {}
    ∧ ((1 < ([JsVal.str "a", JsVal.str "b"] : List JsVal).length →
          consoleBodyArgs c2wLv [.str "a", .str "b"] = ([JsVal.str "a", JsVal.str "b"] : List JsVal).dropLast
          ∧ (consoleBodyArgs c2wLv [.str "a", .str "b"]).length + 1
              = ([JsVal.str "a", JsVal.str "b"] : List JsVal).length)
      ∧ (([JsVal.str "a", JsVal.str "b"] : List JsVal).length ≤ 1 →
          consoleBodyArgs c2wLv [.str "a", .str "b"] = [JsVal.str "a", JsVal.str "b"])
      ∧ (∀ fw, (handleLog 2 defaultOptions 0 c2wLv none [.str "a", .str "b"]).fileWrite = some fw →
          fw.record.args = [JsVal.str "a", JsVal.str "b"])
      ∧ (c2wLv.formatToString = none →
          ∀ s, (formatPayload 2 defaultOptions 0 c2wLv none [.str "a", .str "b"]).2 = .ok s →
          ∃ body, (renderBody 2 defaultOptions 0 c2wLv [.str "a", .str "b"]).2 = .ok body
            ∧ s = levelPfxStr c2wLv ++ body)) :=
  ⟨rfl, eud_c2 2 defaultOptions 0 c2wLv {} none [.str "a", .str "b"] rfl⟩

/-- Configuration for C3: plain rendering (`formatArgs := false`), console
timestamps off so the body is the whole line. -/
def c3Cfg : OptionsRec := { defaultOptions with formatArgs := false, consoleTimestamps := false }

/-- Bare level for C3. -/
def c3Lv : Level := { label := "t" }

/-- The C3 payload `[42, [1,2,3], \x7ba:1\x7d]`. -/
def c3Payload : List JsVal := [.num 42, .arr [.num 1, .num 2, .num 3], .obj [("a", .num 1)]]

/-- C3 counterexample: with plain rendering the body for
`[42, [1,2,3], \x7ba:1\x7d]` is `"42 / 1, 2, 3 / \x7b\"a\":1\x7d"` — inner arrays are
joined by `", "` (`arg.join(", ")`), not by bare commas — so the claimed
exact string `"42 / 1,2,3 / \x7b\"a\":1\x7d"` is not produced. -/
theorem eud_c3_cex :
    (formatPayload 1 c3Cfg 0 c3Lv none c3Payload).2 = .ok "42 / 1, 2, 3 / \x7b\"a\":1\x7d"
    ∧ (formatPayload 1 c3Cfg 0 c3Lv none c3Payload).2 ≠ .ok "42 / 1,2,3 / \x7b\"a\":1\x7d" := by
  refine ⟨rfl, ?_⟩
  intro h
  rw [show (formatPayload 1 c3Cfg 0 c3Lv none c3Payload).2
      = .ok "42 / 1, 2, 3 / \x7b\"a\":1\x7d" from rfl] at h
  simp only [Except.ok.injEq] at h
  exact absurd h (by decide)

/-- C3 (amended): with `argFormattingEnabled = false` and no custom
renderer, the payload `[42, [1,2,3], \x7ba:1\x7d]` renders to exactly
`"42 / 1, 2, 3 / \x7b\"a\":1\x7d"`: elements in order, numbers unchanged, inner
arrays joined by comma-and-space, objects as compact JSON, elements joined
by `" / "`, with no decoration bands. -/
theorem eud_c3 :
    (formatPayload 1 c3Cfg 0 c3Lv none c3Payload).2
      = .ok "42 / 1, 2, 3 / \x7b\"a\":1\x7d" := rfl

/-- Configuration with an invalid date-strategy name. -/
def c4CfgName : OptionsRec := { defaultOptions with formatDate := .byName "bogus" }

/-- Configuration with a throwing date-strategy function. -/
def c4CfgFn : OptionsRec :=
  { defaultOptions with formatDate := .byFn (fun _ => .error (.userThrow "boom")) }

/-- C4 (code bug): with a failing date strategy — an invalid method name or
a throwing function — `#formatDate` never returns a string at any stack
depth: its catch block calls `#internalErrorLog`, whose header formats a
timestamp with the same broken strategy, re-entering `#formatDate`; the
mutual recursion consumes the entire stack (every fuel yields the
stack-overflow exception, zero completed reports), so the documented
fallback `return date.toISOString()` on the line after the report call is
never reached. -/
theorem eud_c4 :
    (∀ fuel now d, formatDate fuel c4CfgName now d = ([], .error .stackOverflow))
    ∧ (∀ fuel now d, formatDate fuel c4CfgFn now d = ([], .error .stackOverflow)) := by
  constructor
  · intro fuel now d
    refine (dateFails_all c4CfgName ?_ fuel).1 now d
    intro d2 s h
    rw [show runStrategy (jsOrStrat c4CfgName.formatDate) d2
        = .error (.typeError "date[format] is not a function") from rfl] at h
    exact Except.noConfusion h
  · intro fuel now d
    refine (dateFails_all c4CfgFn ?_ fuel).1 now d
    intro d2 s h
    rw [show runStrategy (jsOrStrat c4CfgFn.formatDate) d2
        = .error (.userThrow "boom") from rfl] at h
    exact Except.noConfusion h

/-- C5: caller options are merged over the built-in defaults field by
field — a supplied field wins, an omitted field takes its default
(`synchronous = false`, `outputDirectory = "./logs"`,
`outputFileExtension = "log"`, `formatArgs = true`,
`formatDate = "toISOString"`, `consoleTimestamps = true`) — and a
construction with no options object at all yields exactly the defaults. -/
theorem eud_c5 (o : OptionsIn) (ls : Option (List Level)) :
    (mergeOptions o).synchronous = o.synchronous.getD false
    ∧ (mergeOptions o).outputDirectory = o.outputDirectory.getD (some "./logs")
    ∧ (mergeOptions o).outputFileExtension = o.outputFileExtension.getD "log"
    ∧ (mergeOptions o).formatArgs = o.formatArgs.getD true
    ∧ (mergeOptions o).formatDate = o.formatDate.getD (.byName "toISOString")
    ∧ (mergeOptions o).consoleTimestamps = o.consoleTimestamps.getD true
    ∧ (mkEudoros { levels := ls, options := none }).options = defaultOptions
    ∧ (mkEudoros { levels := ls, options := some o }).options = mergeOptions o :=
  ⟨rfl, rfl, rfl, rfl, rfl, rfl, rfl, rfl⟩

/-- Configuration for C6 (console timestamps disabled to isolate the
prefix handling). -/
def c6Cfg : OptionsRec := { defaultOptions with consoleTimestamps := false }

/-- Trace level with a group label but no group prefix, for C6. -/
def c6Lv : Level :=
  { label := "critical", trace := some { groupLabel := some "Critical error encountered." } }

/-- C6 (code bug): with `groupPrefix` absent the group header starts with
the literal text `"undefined "` — `level.trace.groupPrefix + " " || ''`
string-coerces the `undefined` prefix and the `|| ''` is dead because the
concatenation is never falsy — instead of omitting the absent part
cleanly. -/
theorem eud_c6 :
    (∀ fuel now, formatGroup fuel c6Cfg now c6Lv none
        = ([], .ok "undefined Critical error encountered."))
    ∧ "undefined Critical error encountered." ≠ "Critical error encountered." := by
  refine ⟨fun fuel now => rfl, by decide⟩

/-- C7: for a level with file logging enabled under an enabled output
directory (and a benign date strategy), the persisted record of a
`withDomain`-style dispatch carries `domain` equal to the supplied
non-empty domain, no `domain` key for an empty domain, and no `domain` key
when no domain was supplied. -/
theorem eud_c7 (fuel : Nat) (o : OptionsRec) (now : Nat) (lv : Level)
    (xs : List JsVal) (dom : String)
    (hgood : DateOk o) (hfuel : 2 ≤ fuel)
    (hfile : logToFileTruthy lv.logToFile = true)
    (hdir : dirTruthy o.outputDirectory = true) :
    (∃ fw, (handleLog fuel o now lv (some dom) xs).fileWrite = some fw
        ∧ fw.record.domain = (if dom = "" then none else some dom)
        ∧ fw.record.level = lv.label)
    ∧ (∃ fw, (handleLog fuel o now lv none xs).fileWrite = some fw
        ∧ fw.record.domain = none) := by
  obtain ⟨m, rfl⟩ : ∃ m, fuel = m + 2 := ⟨fuel - 2, by omega⟩
  have hg : (logToFileTruthy lv.logToFile && dirTruthy o.outputDirectory) = true := by
    rw [hfile, hdir]; rfl
  constructor
  · obtain ⟨msg, _, _, _, _, hfw, _⟩ := handleLog_fields hgood m now lv (some dom) xs
    obtain ⟨ts, hts⟩ := hfw hg
    refine ⟨buildFileWrite o now lv (some dom) xs ts, hts, ?_, rfl⟩
    by_cases hd : dom = "" <;> simp [buildFileWrite, recDomain, hd]
  · obtain ⟨msg, _, _, _, _, hfw, _⟩ := handleLog_fields hgood m now lv none xs
    obtain ⟨ts, hts⟩ := hfw hg
    exact ⟨_, hts, by simp [buildFileWrite, recDomain]⟩

/-- Level for the C7 witness. -/
def c7Lv : Level := { label := "info", logToFile := some (.inl true) }

/-- C7 witness: concrete dispatch with domain `AuthService` under the
default configuration. -/
theorem eud_c7_witness :
    DateOk defaultOptions ∧ 2 ≤ 2
    ∧ logToFileTruthy c7Lv.logToFile = true
    ∧ dirTruthy defaultOptions.outputDirectory = true
    ∧ ((∃ fw, (handleLog 2 defaultOptions 0 c7Lv (some "AuthService") [.str "x", .num 5]).fileWrite = some fw
          ∧ fw.record.domain = (if "AuthService" = "" then none else some "AuthService")
          ∧ fw.record.level = c7Lv.label)
      ∧ (∃ fw, (handleLog 2 defaultOptions 0 c7Lv none [.str "x", .num 5]).fileWrite = some fw
          ∧ fw.record.domain = none)) :=
  ⟨dateOk_default, by omega, rfl, rfl,
    eud_c7 2 defaultOptions 0 c7Lv [.str "x", .num 5] "AuthService"
      dateOk_default (by omega) rfl rfl⟩

/-- Instance for the C8 witness. -/
def c8Inst : EudorosInst := mkEudoros {}

/-- C8: `withDomain` with an unregistered label produces exactly one
internal error report and dispatches nothing (no `#handleLog`, hence no
console and no file output); with a registered label it dispatches through
the normal pipeline with the supplied domain. -/
theorem eud_c8 (fuel : Nat) (inst : EudorosInst) (now : Nat) (lbl dom : String)
    (xs : List JsVal) (hgood : DateOk inst.options) (hfuel : 2 ≤ fuel) :
    ((inst.levels.find? (fun l => l.label == lbl)) = none →
        (withDomainCall fuel inst now lbl dom xs).dispatched = none
        ∧ (withDomainCall fuel inst now lbl dom xs).reports.length = 1
        ∧ (withDomainCall fuel inst now lbl dom xs).callerFault = none)
    ∧ (∀ lv, (inst.levels.find? (fun l => l.label == lbl)) = some lv →
        (withDomainCall fuel inst now lbl dom xs).dispatched
          = some (handleLog fuel inst.options now lv (some dom) xs)) := by
  obtain ⟨m, rfl⟩ : ∃ m, fuel = m + 2 := ⟨fuel - 2, by omega⟩
  constructor
  · intro hmiss
    obtain ⟨ts, hiel⟩ := internalErrorLog_ok hgood m now
      ("Invalid log level `" ++ lbl ++ "` provided!") none
    refine ⟨?_, ?_, ?_⟩ <;> simp [withDomainCall, hmiss, hiel]
  · intro lv hfind
    simp [withDomainCall, hfind, asyncCall]

/-- C8 witness: `withDomain("nonexistent-level", "X", "y")` on the default
instance. -/
theorem eud_c8_witness :
    DateOk c8Inst.options ∧ 2 ≤ 2
    ∧ (((c8Inst.levels.find? (fun l => l.label == "nonexistent-level")) = none →
          (withDomainCall 2 c8Inst 0 "nonexistent-level" "X" [.str "y"]).dispatched = none
          ∧ (withDomainCall 2 c8Inst 0 "nonexistent-level" "X" [.str "y"]).reports.length = 1
          ∧ (withDomainCall 2 c8Inst 0 "nonexistent-level" "X" [.str "y"]).callerFault = none)
      ∧ (∀ lv, (c8Inst.levels.find? (fun l => l.label == "nonexistent-level")) = some lv →
          (withDomainCall 2 c8Inst 0 "nonexistent-level" "X" [.str "y"]).dispatched
            = some (handleLog 2 c8Inst.options 0 lv (some "X") [.str "y"]))) :=
  ⟨dateOk_default, by omega,
    eud_c8 2 c8Inst 0 "nonexistent-level" "X" [.str "y"] dateOk_default (by omega)⟩

/-- Instance for the C9 witness. -/
def c9Inst : EudorosInst := mkEudoros {}

/-- Level for the C9 witness (suffixed file target). -/
def c9Lv : Level := { label := "audit", logToFile := some (.inr "audit") }

/-- C9: dispatch is stateless and deterministic — one call leaves the
instance unchanged, repeating the same call against the post-call instance
yields an identical output, and the trace pop operates on a per-call copy:
the file record still carries the original arguments. -/
theorem eud_c9 (fuel : Nat) (inst : EudorosInst) (now : Nat) (lv : Level)
    (dom : Option String) (xs : List JsVal) (fw : FileWrite)
    (hfw : (handleLog fuel inst.options now lv dom xs).fileWrite = some fw) :
    (dispatchCall fuel inst now lv dom xs).1 = inst
    ∧ (dispatchCall fuel (dispatchCall fuel inst now lv dom xs).1 now lv dom xs).2
        = (dispatchCall fuel inst now lv dom xs).2
    ∧ fw.record.args = xs :=
  ⟨rfl, rfl, (handleLog_fileArgs fuel inst.options now lv dom xs fw hfw).1⟩

/-- C9 witness: a concrete repeated dispatch with its file record. -/
theorem eud_c9_witness :
    ∃ fw, (handleLog 2 c9Inst.options 0 c9Lv none [.str "x"]).fileWrite = some fw
      ∧ ((dispatchCall 2 c9Inst 0 c9Lv none [.str "x"]).1 = c9Inst
        ∧ (dispatchCall 2 (dispatchCall 2 c9Inst 0 c9Lv none [.str "x"]).1 0 c9Lv none [.str "x"]).2
            = (dispatchCall 2 c9Inst 0 c9Lv none [.str "x"]).2
        ∧ fw.record.args = [JsVal.str "x"]) :=
  ⟨_, rfl, eud_c9 2 c9Inst 0 c9Lv none [.str "x"] _ rfl⟩

/-- Trace level for the C10 witness. -/
def c10Lv : Level := { label := "t", trace := some {} }

/-- C10: on a trace-enabled level (default rendering), a one-element
payload is rendered whole in the console body — nothing is popped — and
the same single element is additionally emitted through `console.trace`
exactly when it is truthy; a falsy single element appears only in the
body. -/
theorem eud_c10 (fuel : Nat) (o : OptionsRec) (now : Nat) (lv : Level) (tr : TraceCfg)
    (v : JsVal) (ht : lv.trace = some tr) (hfts : lv.formatToString = none)
    (hgood : DateOk o) (hfuel : 2 ≤ fuel) :
    consoleBodyArgs lv [v] = [v]
    ∧ ∃ hdr msg body,
        (renderBody fuel o now lv [v]).2 = .ok body
        ∧ (formatPayload fuel o now lv none [v]).2 = .ok msg
        ∧ msg = levelPfxStr lv ++ body
        ∧ (handleLog fuel o now lv none [v]).console
            = [.group hdr, .line (resolveConsoleMethod lv) msg]
              ++ (if jsTruthy v then [.traceOut v] else []) ++ [.groupEnd] := by
  obtain ⟨m, rfl⟩ : ∃ m, fuel = m + 2 := ⟨fuel - 2, by omega⟩
  refine ⟨by simp [consoleBodyArgs], ?_⟩
  obtain ⟨msg, hfp, _, _, hcons, _, _⟩ := handleLog_fields hgood m now lv none [v]
  obtain ⟨r, hdr, hg⟩ := formatGroup_ok hgood m now lv none
  have hsend : sendConsole (m + 2) o now lv none msg (resolveConsoleMethod lv) [v]
      = (r, [.group hdr, .line (resolveConsoleMethod lv) msg]
          ++ (if jsTruthy v then [.traceOut v] else []) ++ [.groupEnd], .ok ()) := by
    simp [sendConsole, ht, hg]
  obtain ⟨body, hrb⟩ := renderBody_ok hgood (m + 1) now lv [v]
  obtain ⟨ts, hts⟩ := timestampPart_ok hgood (m + 1) now (levelFmt lv) (effTimestamps o lv)
  have hfp2 : formatPayload (m + 2) o now lv none [v]
      = ([], .ok (composeLine lv (levelFmt lv) ts none body)) := by
    simp [formatPayload, hts, hfts, hrb]
  rw [hfp2] at hfp
  simp only [Except.ok.injEq] at hfp
  have hmsg : msg = levelPfxStr lv ++ body := by
    rw [← hfp]
    simp [composeLine, ht]
  refine ⟨hdr, msg, body, by simp [hrb], by simp [hfp2, ← hfp], hmsg, ?_⟩
  rw [hcons, hsend]

/-- C10 witness: single truthy element `"m"` on a concrete trace level
under the default configuration. -/
theorem eud_c10_witness :
    c10Lv.trace = some {} ∧ c10Lv.formatToString = none ∧ DateOk defaultOptions ∧ 2 ≤ 2
    ∧ (consoleBodyArgs c10Lv [.str "m"] = [JsVal.str "m"]
      ∧ ∃ hdr msg body,
          (renderBody 2 defaultOptions 0 c10Lv [.str "m"]).2 = .ok body
          ∧ (formatPayload 2 defaultOptions 0 c10Lv none [.str "m"]).2 = .ok msg
          ∧ msg = levelPfxStr c10Lv ++ body
          ∧ (handleLog 2 defaultOptions 0 c10Lv none [.str "m"]).console
              = [.group hdr, .line (resolveConsoleMethod c10Lv) msg]
                ++ (if jsTruthy (.str "m") then [.traceOut (.str "m")] else []) ++ [.groupEnd]) :=
  ⟨rfl, rfl, dateOk_default, by omega,
    eud_c10 2 defaultOptions 0 c10Lv {} (.str "m") rfl rfl dateOk_default (by omega)⟩

end Eud
